/-
Verification of the MQTT v3.1.1 wire-format layer of ntex-mqtt:
a shallow embedding of `src/codec3/codec/encode.rs` (packet model,
`get_encoded_size`, `encode`, `write_variable_length`, the `Encode`
impls for byte buffers) and of `src/v3/control.rs` (the Subscribe
control object with its per-entry outcome slots), with theorems about
the properties the specification states.

Byte buffers (`Bytes`, `ByteString`, `&[u8]`) are modelled as `List Nat`
of byte values; `u16`/`u8` truncating casts are modelled with `% 256` /
`% 65536` where the source performs a cast.  `encode` mutates a
`&mut BytesMut` destination and may return early with an error via `?`,
so it is embedded as explicit state passing: each step takes the buffer
so far and returns the (possibly grown) buffer together with an optional
error; the `?` operator is the `chain` combinator below.
-/
import Mathlib

set_option maxHeartbeats 1000000

/-- QoS levels, `crate::types::QoS`. Numeric values 0, 1, 2 are stable. -/
inductive QoS
  | AtMostOnce
  | AtLeastOnce
  | ExactlyOnce
deriving DecidableEq, Repr

/-- Numeric value of a QoS level (`u8::from(qos)` / `qos as u8`). -/
def QoS.toU8 : QoS → Nat
  | QoS.AtMostOnce => 0
  | QoS.AtLeastOnce => 1
  | QoS.ExactlyOnce => 2

/-- `SubscribeReturnCode`: one per requested topic filter in a SubscribeAck. -/
inductive SubscribeReturnCode
  | Success (qos : QoS)
  | Failure
deriving DecidableEq, Repr

/-- `LastWill`: will message attached to a Connect. -/
structure LastWill where
  qos : QoS
  retain : Bool
  topic : List Nat
  message : List Nat
deriving DecidableEq, Repr

/-- `Connect` packet payload. `client_id`, `username` are UTF-8 strings and
`password` a byte buffer; all are modelled by their byte sequences. -/
structure Connect where
  clean_session : Bool
  keep_alive : Nat
  last_will : Option LastWill
  client_id : List Nat
  username : Option (List Nat)
  password : Option (List Nat)
deriving DecidableEq, Repr

/-- `Publish` packet payload. `packet_id` is `Option<NonZeroU16>` in the
source; the contained value is modelled as a `Nat`. -/
structure Publish where
  dup : Bool
  retain : Bool
  qos : QoS
  topic : List Nat
  packet_id : Option Nat
  payload : List Nat
deriving DecidableEq, Repr

/-- The `Packet` enum of `codec3::packet`.  `ConnectAck`'s return code enum is
modelled by its numeric `u8` value; `NonZeroU16` packet ids by `Nat`. -/
inductive Packet
  | Connect (connect : Connect)
  | ConnectAck (session_present : Bool) (return_code : Nat)
  | Publish (publish : Publish)
  | PublishAck (packet_id : Nat)
  | PublishReceived (packet_id : Nat)
  | PublishRelease (packet_id : Nat)
  | PublishComplete (packet_id : Nat)
  | Subscribe (packet_id : Nat) (topic_filters : List (List Nat × QoS))
  | SubscribeAck (packet_id : Nat) (status : List SubscribeReturnCode)
  | Unsubscribe (packet_id : Nat) (topic_filters : List (List Nat))
  | UnsubscribeAck (packet_id : Nat)
  | PingRequest
  | PingResponse
  | Disconnect
deriving DecidableEq, Repr

/-- `EncodeError` variants reachable from `encode`. -/
inductive EncodeError
  | InvalidLength
  | MalformedPacket
  | PacketIdRequired
deriving DecidableEq, Repr

/-- Modelled from the spec: the fixed-header type bytes (`packet_type`
module, not under `src/`); values are pinned by the wire-format section of
the spec (type nibble in bits 7 to 4, type flags in bits 3 to 0) and by the
byte-exact test vectors inside `encode.rs`. -/
def packet_type.CONNECT : Nat := 0x10

/-- Modelled from the spec: CONNACK type byte. -/
def packet_type.CONNACK : Nat := 0x20

/-- Modelled from the spec: PUBLISH type byte with all flag bits clear. -/
def packet_type.PUBLISH_START : Nat := 0x30

/-- Modelled from the spec: PUBACK type byte. -/
def packet_type.PUBACK : Nat := 0x40

/-- Modelled from the spec: PUBREC type byte. -/
def packet_type.PUBREC : Nat := 0x50

/-- Modelled from the spec: PUBREL type byte (reserved flag bits 0b0010). -/
def packet_type.PUBREL : Nat := 0x62

/-- Modelled from the spec: PUBCOMP type byte. -/
def packet_type.PUBCOMP : Nat := 0x70

/-- Modelled from the spec: SUBSCRIBE type byte (reserved flag bits 0b0010). -/
def packet_type.SUBSCRIBE : Nat := 0x82

/-- Modelled from the spec: SUBACK type byte. -/
def packet_type.SUBACK : Nat := 0x90

/-- Modelled from the spec: UNSUBSCRIBE type byte (reserved bits 0b0010). -/
def packet_type.UNSUBSCRIBE : Nat := 0xA2

/-- Modelled from the spec: UNSUBACK type byte. -/
def packet_type.UNSUBACK : Nat := 0xB0

/-- Modelled from the spec: PINGREQ type byte. -/
def packet_type.PINGREQ : Nat := 0xC0

/-- Modelled from the spec: PINGRESP type byte. -/
def packet_type.PINGRESP : Nat := 0xD0

/-- Modelled from the spec: DISCONNECT type byte. -/
def packet_type.DISCONNECT : Nat := 0xE0

/-- Modelled from the spec: the protocol level constant `MQTT_LEVEL` (0x04). -/
def MQTT_LEVEL : Nat := 0x04

/-- Modelled from the spec: `WILL_QOS_SHIFT` — will-QoS occupies connect-flag
bits 4 to 3. -/
def WILL_QOS_SHIFT : Nat := 3

/-- The bytes of the protocol name `b"MQTT"`. -/
def mqttName : List Nat := [77, 81, 84, 84]

/-- `BufMut::put_u16`: 2 bytes, big endian. -/
def putU16 (n : Nat) : List Nat := [(n >>> 8) % 256, n % 256]

/-- The `Encode` impl for `Bytes` / `&[u8]` / `ByteString`: a 16-bit
big-endian length prefix followed by the raw bytes; `u16::try_from(len)`
fails with `InvalidLength` when the buffer is longer than 65535 bytes, in
which case nothing is appended. -/
def encBytes (s : List Nat) (dst : List Nat) : List Nat × Option EncodeError :=
  if 65535 < s.length then (dst, some EncodeError.InvalidLength)
  else (dst ++ putU16 s.length ++ s, none)

/-- The `?` operator on the (buffer, optional error) state: stop at the
first error, otherwise continue with the buffer produced so far. -/
def chain (r : List Nat × Option EncodeError)
    (g : List Nat → List Nat × Option EncodeError) : List Nat × Option EncodeError :=
  match r with
  | (d, some e) => (d, some e)
  | (d, none) => g d

/-- The connect-flags byte built by `encode_connect`: bit 7 username, bit 6
password, bit 5 will-retain, bits 4 to 3 will QoS, bit 2 will, bit 1
clean-session (`ConnectFlags`); `from_bits_truncate` keeps only the flag
bits, modelled by masking the shifted will QoS with 0x18. -/
def connectFlagsByte (c : Connect) : Nat :=
  (if c.username.isSome then 0x80 else 0) |||
  (if c.password.isSome then 0x40 else 0) |||
  (match c.last_will with
   | some w =>
       0x04 ||| (if w.retain then 0x20 else 0) |||
         ((w.qos.toU8 <<< WILL_QOS_SHIFT) &&& 0x18)
   | none => 0) |||
  (if c.clean_session then 0x02 else 0)

/-- The optional will fields of `encode_connect`: will topic then will
message, each length-prefixed, when a will is present. -/
def encWill (o : Option LastWill) (dst : List Nat) : List Nat × Option EncodeError :=
  match o with
  | some w => chain (encBytes w.topic dst) (fun d => encBytes w.message d)
  | none => (dst, none)

/-- An optional length-prefixed field (`if let Some(ref s) = ... { s.encode(dst)? }`). -/
def encOpt (o : Option (List Nat)) (dst : List Nat) : List Nat × Option EncodeError :=
  match o with
  | some s => encBytes s dst
  | none => (dst, none)

/-- `encode_connect`: protocol name, protocol level, connect flags,
keep-alive, client id, optional will topic and message, optional username,
optional password, in that order. -/
def encode_connect (c : Connect) (dst : List Nat) : List Nat × Option EncodeError :=
  chain (encBytes mqttName dst) (fun d =>
    let d := d ++ [MQTT_LEVEL, connectFlagsByte c] ++ putU16 c.keep_alive
    chain (encBytes c.client_id d) (fun d =>
      chain (encWill c.last_will d) (fun d =>
        chain (encOpt c.username d) (fun d =>
          encOpt c.password d))))

/-- `write_variable_length`: 1 to 4 bytes of base-128 continuation encoding;
each `as u8` cast is `% 256`.  The source performs no range check (the
commented-out check is dead code), so sizes beyond `268435455` fall into the
4-byte branch with the last byte truncated. -/
def writeVariableLength (size : Nat) : List Nat :=
  if size ≤ 127 then [size % 256]
  else if size ≤ 16383 then
    [(size % 128) ||| 0x80, (size >>> 7) % 256]
  else if size ≤ 2097151 then
    [(size % 128) ||| 0x80, ((size >>> 7) % 128) ||| 0x80, (size >>> 14) % 256]
  else
    [(size % 128) ||| 0x80, ((size >>> 7) % 128) ||| 0x80,
      ((size >>> 14) % 128) ||| 0x80, (size >>> 21) % 256]

/-- The Publish fixed-header byte: `PUBLISH_START | (qos << 1) | (dup << 3) | retain`. -/
def publishHeader (p : Publish) : Nat :=
  packet_type.PUBLISH_START ||| (p.qos.toU8 <<< 1) |||
    ((if p.dup then 1 else 0) <<< 3) ||| (if p.retain then 1 else 0)

/-- The status byte of one `SubscribeReturnCode` in a SubscribeAck body:
`Success(qos) => qos.into(), _ => 0x80u8`. -/
def subRetCodeByte : SubscribeReturnCode → Nat
  | SubscribeReturnCode.Success q => q.toU8
  | SubscribeReturnCode.Failure => 0x80

/-- The Subscribe body loop: each filter length-prefixed, then its requested
QoS byte. -/
def encodeSubFilters : List (List Nat × QoS) → List Nat → List Nat × Option EncodeError
  | [], d => (d, none)
  | fq :: rest, d =>
      chain (encBytes fq.1 d) (fun d => encodeSubFilters rest (d ++ [fq.2.toU8]))

/-- The Unsubscribe body loop: each filter length-prefixed. -/
def encodeUnsubFilters : List (List Nat) → List Nat → List Nat × Option EncodeError
  | [], d => (d, none)
  | f :: rest, d => chain (encBytes f d) (fun d => encodeUnsubFilters rest d)

/-- `get_encoded_size`: the exact byte count of the variable part of the
packet (everything after the fixed header and the remaining-length field).
Total, never fails. -/
def get_encoded_size : Packet → Nat
  | Packet.Connect c =>
      2 + 4 + 1 + 1 + 2 + (2 + c.client_id.length) +
        (match c.last_will with
         | some w => 2 + w.topic.length + 2 + w.message.length
         | none => 0) +
        (match c.username with
         | some s => 2 + s.length
         | none => 0) +
        (match c.password with
         | some s => 2 + s.length
         | none => 0)
  | Packet.Publish p =>
      if p.qos = QoS.AtLeastOnce ∨ p.qos = QoS.ExactlyOnce then
        4 + p.topic.length + p.payload.length
      else
        2 + p.topic.length + p.payload.length
  | Packet.ConnectAck _ _ => 2
  | Packet.PublishAck _ => 2
  | Packet.PublishReceived _ => 2
  | Packet.PublishRelease _ => 2
  | Packet.PublishComplete _ => 2
  | Packet.UnsubscribeAck _ => 2
  | Packet.Subscribe _ fs =>
      2 + fs.foldl (fun acc fq => acc + 2 + fq.1.length + 1) 0
  | Packet.SubscribeAck _ status => 2 + status.length
  | Packet.Unsubscribe _ fs =>
      2 + fs.foldl (fun acc f => acc + 2 + f.length) 0
  | Packet.PingRequest => 0
  | Packet.PingResponse => 0
  | Packet.Disconnect => 0

/-- `encode`: appends to `dst` the fixed-header type byte, the
variable-length remaining-length prefix holding `content_size`, then the
body; returns the final buffer together with the error, if any, at which
encoding stopped.  Ping/Pong/Disconnect emit their two bytes directly. -/
def encode (packet : Packet) (dst : List Nat) (content_size : Nat) :
    List Nat × Option EncodeError :=
  match packet with
  | Packet.Connect c =>
      encode_connect c
        (dst ++ [packet_type.CONNECT] ++ writeVariableLength content_size)
  | Packet.ConnectAck session_present return_code =>
      (dst ++ [packet_type.CONNACK] ++ writeVariableLength content_size ++
        [if session_present then 0x01 else 0x00, return_code % 256], none)
  | Packet.Publish p =>
      let d := dst ++ [publishHeader p] ++ writeVariableLength content_size
      chain (encBytes p.topic d) (fun d =>
        if p.qos = QoS.AtMostOnce then
          if p.packet_id.isSome then (d, some EncodeError.MalformedPacket)
          else (d ++ p.payload, none)
        else
          match p.packet_id with
          | none => (d, some EncodeError.PacketIdRequired)
          | some pid => (d ++ putU16 pid ++ p.payload, none))
  | Packet.PublishAck pid =>
      (dst ++ [packet_type.PUBACK] ++ writeVariableLength content_size ++ putU16 pid, none)
  | Packet.PublishReceived pid =>
      (dst ++ [packet_type.PUBREC] ++ writeVariableLength content_size ++ putU16 pid, none)
  | Packet.PublishRelease pid =>
      (dst ++ [packet_type.PUBREL] ++ writeVariableLength content_size ++ putU16 pid, none)
  | Packet.PublishComplete pid =>
      (dst ++ [packet_type.PUBCOMP] ++ writeVariableLength content_size ++ putU16 pid, none)
  | Packet.Subscribe pid fs =>
      encodeSubFilters fs
        (dst ++ [packet_type.SUBSCRIBE] ++ writeVariableLength content_size ++ putU16 pid)
  | Packet.SubscribeAck pid status =>
      (dst ++ [packet_type.SUBACK] ++ writeVariableLength content_size ++ putU16 pid ++
        status.map subRetCodeByte, none)
  | Packet.Unsubscribe pid fs =>
      encodeUnsubFilters fs
        (dst ++ [packet_type.UNSUBSCRIBE] ++ writeVariableLength content_size ++ putU16 pid)
  | Packet.UnsubscribeAck pid =>
      (dst ++ [packet_type.UNSUBACK] ++ writeVariableLength content_size ++ putU16 pid, none)
  | Packet.PingRequest => (dst ++ [packet_type.PINGREQ, 0], none)
  | Packet.PingResponse => (dst ++ [packet_type.PINGRESP, 0], none)
  | Packet.Disconnect => (dst ++ [packet_type.DISCONNECT, 0], none)

namespace control

/-- `v3::control::Subscribe`: the decoded (topic, requested QoS) pairs plus
the same-length array of outcome slots. -/
structure Subscribe where
  packet_id : Nat
  topics : List (List Nat × QoS)
  codes : List SubscribeReturnCode
deriving DecidableEq, Repr

/-- `SubscribeResult`: what `Subscribe::ack` produces. -/
structure SubscribeResult where
  codes : List SubscribeReturnCode
  packet_id : Nat
deriving DecidableEq, Repr

/-- `Subscribe::new`: pushes one `Failure` per requested topic. -/
def Subscribe.new (pid : Nat) (topics : List (List Nat × QoS)) : Subscribe :=
  { packet_id := pid
    topics := topics
    codes := List.replicate topics.length SubscribeReturnCode.Failure }

/-- `Subscribe::ack`: converts the object into its result, keeping the
outcome slots as they stand. -/
def Subscribe.ack (s : Subscribe) : SubscribeResult :=
  { codes := s.codes, packet_id := s.packet_id }

/-- One call a handler can make on a `Subscription` handle.  `SubscribeIter`
yields, for entry `i`, a handle whose `subscribe(qos)` / `fail()` assign
`codes[i]`; a handler run is a sequence of such slot assignments.  The
iterator only ever hands out in-bounds entries. -/
inductive SubAction
  | subscribe (entry : Nat) (qos : QoS)
  | fail (entry : Nat)
deriving DecidableEq, Repr

/-- The slot an action writes to. -/
def SubAction.entry : SubAction → Nat
  | SubAction.subscribe i _ => i
  | SubAction.fail i => i

/-- Effect of one `Subscription` call: `subscribe` stores `Success(qos)` in
the entry's slot, `fail` stores `Failure` (`*self.code = ...`). -/
def step (s : Subscribe) (a : SubAction) : Subscribe :=
  match a with
  | SubAction.subscribe i q =>
      { s with codes := s.codes.set i (SubscribeReturnCode.Success q) }
  | SubAction.fail i =>
      { s with codes := s.codes.set i SubscribeReturnCode.Failure }

/-- A whole handler run over the control object. -/
def applyActs (s : Subscribe) (acts : List SubAction) : Subscribe :=
  acts.foldl step s

/-- The last action of a run that wrote to entry `i`, if any. -/
def lastOn : List SubAction → Nat → Option SubAction
  | [], _ => none
  | a :: rest, i =>
      match lastOn rest i with
      | some b => some b
      | none => if a.entry = i then some a else none

/-- The outcome a slot write leaves behind; `none` (never written) keeps
the default `Failure`. -/
def outcomeOf : Option SubAction → SubscribeReturnCode
  | some (SubAction.subscribe _ q) => SubscribeReturnCode.Success q
  | some (SubAction.fail _) => SubscribeReturnCode.Failure
  | none => SubscribeReturnCode.Failure

end control

theorem putU16_length (n : Nat) : (putU16 n).length = 2 := rfl

theorem chain_ok (d : List Nat) (g : List Nat → List Nat × Option EncodeError) :
    chain (d, none) g = g d := rfl

theorem chain_fail (d : List Nat) (e : EncodeError)
    (g : List Nat → List Nat × Option EncodeError) :
    chain (d, some e) g = (d, some e) := rfl

theorem chain_snd_none {r : List Nat × Option EncodeError}
    {g : List Nat → List Nat × Option EncodeError} :
    (chain r g).2 = none ↔ r.2 = none ∧ (g r.1).2 = none := by
  obtain ⟨d, e⟩ := r
  cases e <;> simp [chain]

theorem encBytes_eq_of_le {s dst : List Nat} (h : s.length ≤ 65535) :
    encBytes s dst = (dst ++ putU16 s.length ++ s, none) := by
  simp [encBytes, Nat.not_lt.mpr h]

theorem encBytes_eq_of_gt {s dst : List Nat} (h : 65535 < s.length) :
    encBytes s dst = (dst, some EncodeError.InvalidLength) := by
  simp [encBytes, h]

theorem encBytes_snd_none {s dst : List Nat} :
    (encBytes s dst).2 = none ↔ s.length ≤ 65535 := by
  by_cases h : 65535 < s.length
  · simp [encBytes_eq_of_gt h]
    omega
  · push_neg at h
    simp [encBytes_eq_of_le h, h]

/-- A field encoder appends exactly `k` bytes whenever it succeeds. -/
def EncSpec (f : List Nat → List Nat × Option EncodeError) (k : Nat) : Prop :=
  ∀ d, (f d).2 = none → (f d).1.length = d.length + k

theorem encSpec_encBytes (s : List Nat) : EncSpec (encBytes s) (2 + s.length) := by
  intro d h
  rw [encBytes_snd_none] at h
  simp [encBytes_eq_of_le h, putU16]
  omega

theorem encSpec_pure (xs : List Nat) : EncSpec (fun d => (d ++ xs, none)) xs.length := by
  intro d _
  simp


theorem chain_none {r : List Nat × Option EncodeError}
    {g : List Nat → List Nat × Option EncodeError} (h : r.2 = none) :
    chain r g = g r.1 := by
  obtain ⟨d, e⟩ := r
  cases e with
  | none => rfl
  | some e => simp at h

theorem encSpec_chain {f g : List Nat → List Nat × Option EncodeError} {k1 k2 : Nat}
    (hf : EncSpec f k1) (hg : EncSpec g k2) :
    EncSpec (fun d => chain (f d) g) (k1 + k2) := by
  intro d h
  show (chain (f d) g).1.length = d.length + (k1 + k2)
  rw [chain_snd_none] at h
  obtain ⟨h1, h2⟩ := h
  rw [chain_none h1, hg _ h2, hf _ h1]
  omega

theorem encSpec_shift {f : List Nat → List Nat × Option EncodeError} {k : Nat}
    (xs : List Nat) (hf : EncSpec f k) :
    EncSpec (fun d => f (d ++ xs)) (xs.length + k) := by
  intro d h
  show (f (d ++ xs)).1.length = d.length + (xs.length + k)
  rw [hf _ h]
  simp
  omega

theorem encSpec_encOpt (o : Option (List Nat)) :
    EncSpec (encOpt o) (match o with | some s => 2 + s.length | none => 0) := by
  cases o with
  | none => intro d _; simp [encOpt]
  | some s => exact encSpec_encBytes s

theorem encSpec_encWill (o : Option LastWill) :
    EncSpec (encWill o)
      (match o with
       | some w => 2 + w.topic.length + 2 + w.message.length
       | none => 0) := by
  cases o with
  | none => intro d _; simp [encWill]
  | some w =>
      intro d hd
      have h := encSpec_chain (encSpec_encBytes w.topic) (encSpec_encBytes w.message) d
      simp only [encWill] at hd ⊢
      rw [h hd]
      omega

theorem encSpec_encode_connect (c : Connect) :
    EncSpec (encode_connect c) (get_encoded_size (Packet.Connect c)) := by
  have hrest :
      EncSpec
        (fun d =>
          chain (encBytes c.client_id d) (fun d =>
            chain (encWill c.last_will d) (fun d =>
              chain (encOpt c.username d) (fun d => encOpt c.password d))))
        ((2 + c.client_id.length) +
          ((match c.last_will with
            | some w => 2 + w.topic.length + 2 + w.message.length
            | none => 0) +
           ((match c.username with | some s => 2 + s.length | none => 0) +
            (match c.password with | some s => 2 + s.length | none => 0)))) :=
    encSpec_chain (encSpec_encBytes c.client_id)
      (encSpec_chain (encSpec_encWill c.last_will)
        (encSpec_chain (encSpec_encOpt c.username) (encSpec_encOpt c.password)))
  have hsh1 := encSpec_shift (putU16 c.keep_alive) hrest
  have hsh2 := encSpec_shift [MQTT_LEVEL, connectFlagsByte c] hsh1
  have hall := encSpec_chain (encSpec_encBytes mqttName) hsh2
  intro d hd
  have h2 := hall d hd
  simp only [encode_connect] at hd h2 ⊢
  rw [h2]
  simp only [get_encoded_size, mqttName, List.length_append, List.length_cons,
    List.length_nil, putU16_length]
  omega

/-- Recursive form of the Subscribe body size. -/
def subFiltersSize : List (List Nat × QoS) → Nat
  | [] => 0
  | fq :: rest => 2 + fq.1.length + 1 + subFiltersSize rest

/-- Recursive form of the Unsubscribe body size. -/
def unsubFiltersSize : List (List Nat) → Nat
  | [] => 0
  | f :: rest => 2 + f.length + unsubFiltersSize rest

theorem encSpec_encodeSubFilters (fs : List (List Nat × QoS)) :
    EncSpec (encodeSubFilters fs) (subFiltersSize fs) := by
  induction fs with
  | nil => intro d _; simp [encodeSubFilters, subFiltersSize]
  | cons fq rest ih =>
      intro d h
      have hc := encSpec_chain (encSpec_encBytes fq.1) (encSpec_shift [fq.2.toU8] ih) d h
      have heq : d.length + (2 + fq.1.length + (List.length [fq.2.toU8] + subFiltersSize rest)) =
          d.length + subFiltersSize (fq :: rest) := by
        simp [subFiltersSize]
        omega
      exact hc.trans heq

theorem encSpec_encodeUnsubFilters (fs : List (List Nat)) :
    EncSpec (encodeUnsubFilters fs) (unsubFiltersSize fs) := by
  induction fs with
  | nil => intro d _; simp [encodeUnsubFilters, unsubFiltersSize]
  | cons f rest ih =>
      intro d h
      have hc := encSpec_chain (encSpec_encBytes f) ih d h
      have heq : d.length + (2 + f.length + unsubFiltersSize rest) =
          d.length + unsubFiltersSize (f :: rest) := by
        simp [unsubFiltersSize]
      exact hc.trans heq

theorem subFiltersSize_foldl (fs : List (List Nat × QoS)) :
    ∀ a : Nat, fs.foldl (fun acc fq => acc + 2 + fq.1.length + 1) a = a + subFiltersSize fs := by
  induction fs with
  | nil => intro a; simp [subFiltersSize]
  | cons fq rest ih =>
      intro a
      simp only [List.foldl_cons]
      rw [ih]
      simp [subFiltersSize]
      omega

theorem unsubFiltersSize_foldl (fs : List (List Nat)) :
    ∀ a : Nat, fs.foldl (fun acc f => acc + 2 + f.length) a = a + unsubFiltersSize fs := by
  induction fs with
  | nil => intro a; simp [unsubFiltersSize]
  | cons f rest ih =>
      intro a
      simp only [List.foldl_cons]
      rw [ih]
      simp [unsubFiltersSize]
      omega

/-- C1: for every packet variant on which `encode` succeeds when invoked
with the precomputed `content_size = get_encoded_size p`, the bytes the
call appends after the 1-byte fixed header and the variable-length
remaining-length prefix number exactly `get_encoded_size p`: the buffer
grows by `1 + |prefix| + get_encoded_size p` bytes in total, so the
precomputed size and the body bytes actually written never diverge. -/
theorem C1_encoded_size_matches_body (p : Packet) (dst : List Nat)
    (h : (encode p dst (get_encoded_size p)).2 = none) :
    (encode p dst (get_encoded_size p)).1.length =
      dst.length + 1 + (writeVariableLength (get_encoded_size p)).length +
        get_encoded_size p := by
  cases p with
  | Connect c =>
      simp only [encode] at h ⊢
      rw [encSpec_encode_connect c _ h]
      simp only [List.length_append, List.length_cons, List.length_nil]
  | ConnectAck sp rc =>
      simp only [encode, get_encoded_size, List.length_append, List.length_cons,
        List.length_nil]
  | Publish pb =>
      obtain ⟨dup, retain, qos, topic, pid, payload⟩ := pb
      by_cases ht : 65535 < topic.length
      · simp [encode, encBytes_eq_of_gt ht, chain_fail] at h
      · push_neg at ht
        cases qos <;> rcases pid with _ | pid <;>
          simp_all [encode, encBytes_eq_of_le ht, chain_ok, chain_fail,
            get_encoded_size, putU16, List.length_append] <;>
          omega
  | PublishAck pid =>
      simp only [encode, get_encoded_size, putU16, List.length_append,
        List.length_cons, List.length_nil]
  | PublishReceived pid =>
      simp only [encode, get_encoded_size, putU16, List.length_append,
        List.length_cons, List.length_nil]
  | PublishRelease pid =>
      simp only [encode, get_encoded_size, putU16, List.length_append,
        List.length_cons, List.length_nil]
  | PublishComplete pid =>
      simp only [encode, get_encoded_size, putU16, List.length_append,
        List.length_cons, List.length_nil]
  | Subscribe pid fs =>
      simp only [encode, get_encoded_size] at h ⊢
      rw [encSpec_encodeSubFilters fs _ h]
      rw [subFiltersSize_foldl fs 0]
      simp only [List.length_append, List.length_cons, List.length_nil, putU16_length]
      omega
  | SubscribeAck pid status =>
      simp only [encode, get_encoded_size, putU16, List.length_append,
        List.length_cons, List.length_nil, List.length_map]
      omega
  | Unsubscribe pid fs =>
      simp only [encode, get_encoded_size] at h ⊢
      rw [encSpec_encodeUnsubFilters fs _ h]
      rw [unsubFiltersSize_foldl fs 0]
      simp only [List.length_append, List.length_cons, List.length_nil, putU16_length]
      omega
  | UnsubscribeAck pid =>
      simp only [encode, get_encoded_size, putU16, List.length_append,
        List.length_cons, List.length_nil]
  | PingRequest =>
      simp [encode, get_encoded_size, writeVariableLength]
  | PingResponse =>
      simp [encode, get_encoded_size, writeVariableLength]
  | Disconnect =>
      simp [encode, get_encoded_size, writeVariableLength]

/-- C1 witness at `Packet.Disconnect` with an empty destination buffer. -/
theorem C1_witness :
    (encode Packet.Disconnect [] (get_encoded_size Packet.Disconnect)).2 = none ∧
    (encode Packet.Disconnect [] (get_encoded_size Packet.Disconnect)).1.length =
      ([] : List Nat).length + 1 +
        (writeVariableLength (get_encoded_size Packet.Disconnect)).length +
        get_encoded_size Packet.Disconnect :=
  ⟨by decide, C1_encoded_size_matches_body Packet.Disconnect [] (by decide)⟩

/-- Shape of the buffer when the Publish branch of `encode` returns one of
the two packet-id caller errors: the fixed header byte, the length prefix
and the length-prefixed topic have already been appended when the error is
detected. -/
theorem publish_err_shape (pb : Publish) (dst : List Nat) (cs : Nat)
    (ht : pb.topic.length ≤ 65535) :
    (pb.qos = QoS.AtMostOnce → pb.packet_id.isSome = true →
      encode (Packet.Publish pb) dst cs =
        (dst ++ [publishHeader pb] ++ writeVariableLength cs ++
          putU16 pb.topic.length ++ pb.topic, some EncodeError.MalformedPacket)) ∧
    (pb.qos ≠ QoS.AtMostOnce → pb.packet_id = none →
      encode (Packet.Publish pb) dst cs =
        (dst ++ [publishHeader pb] ++ writeVariableLength cs ++
          putU16 pb.topic.length ++ pb.topic, some EncodeError.PacketIdRequired)) := by
  constructor
  · intro h1 h2
    simp [encode, encBytes_eq_of_le ht, chain_ok, h1, h2]
  · intro h1 h2
    simp [encode, encBytes_eq_of_le ht, chain_ok, h1, h2]

/-- C2 counterexample: encoding a QoS0 Publish with a set packet id returns
the `MalformedPacket` caller error, yet the destination buffer is no longer
empty — the header byte and the length prefix were written before the body
was validated, so the operation is not atomic-or-error. -/
theorem C2_counterexample :
    (encode (Packet.Publish (Publish.mk false false QoS.AtMostOnce [116] (some 1) []))
        [] 3).2 = some EncodeError.MalformedPacket ∧
    (encode (Packet.Publish (Publish.mk false false QoS.AtMostOnce [116] (some 1) []))
        [] 3).1 ≠ ([] : List Nat) := by
  decide

/-- C2 (amended): when `encode` returns a packet-id caller error on a
Publish whose topic fits the 16-bit length prefix, partial bytes do remain
in the destination buffer: the fixed header byte, the remaining-length
prefix and the length-prefixed topic are appended before body validation,
and exactly those bytes are left behind with the error. -/
theorem C2_publish_error_leaves_partial_bytes (pb : Publish) (dst : List Nat) (cs : Nat)
    (ht : pb.topic.length ≤ 65535) :
    (pb.qos = QoS.AtMostOnce → pb.packet_id.isSome = true →
      encode (Packet.Publish pb) dst cs =
        (dst ++ [publishHeader pb] ++ writeVariableLength cs ++
          putU16 pb.topic.length ++ pb.topic, some EncodeError.MalformedPacket)) ∧
    (pb.qos ≠ QoS.AtMostOnce → pb.packet_id = none →
      encode (Packet.Publish pb) dst cs =
        (dst ++ [publishHeader pb] ++ writeVariableLength cs ++
          putU16 pb.topic.length ++ pb.topic, some EncodeError.PacketIdRequired)) :=
  publish_err_shape pb dst cs ht

/-- C2 witness: the amended statement applied at a concrete QoS0 Publish
with a set packet id. -/
theorem C2_witness :
    encode (Packet.Publish (Publish.mk false false QoS.AtMostOnce [116] (some 1) [])) [] 3 =
      ([] ++ [publishHeader (Publish.mk false false QoS.AtMostOnce [116] (some 1) [])] ++
        writeVariableLength 3 ++ putU16 1 ++ [116], some EncodeError.MalformedPacket) :=
  (C2_publish_error_leaves_partial_bytes
      (Publish.mk false false QoS.AtMostOnce [116] (some 1) []) [] 3 (by decide)).1 rfl rfl

/-- C3 counterexample: a QoS0 Publish with a set packet id whose topic is
65536 bytes long does not fail with `MalformedPacket` — the topic field is
encoded before the packet-id check and its `u16::try_from` fails first, so
`encode` returns `InvalidLength` instead. -/
theorem C3_counterexample :
    (encode (Packet.Publish
        (Publish.mk false false QoS.AtMostOnce (List.replicate 65536 0) (some 1) []))
        [] 0).2 = some EncodeError.InvalidLength ∧
    EncodeError.InvalidLength ≠ EncodeError.MalformedPacket := by
  constructor
  · have hgt : 65535 < (List.replicate 65536 (0 : Nat)).length := by
      rw [List.length_replicate]
      omega
    simp only [encode, encBytes_eq_of_gt hgt, chain_fail]
  · decide

/-- C3 (amended): provided the topic fits the 16-bit length prefix (at most
65535 bytes), encoding a Publish with `qos = AtMostOnce` and a set packet id
fails with `MalformedPacket`, and encoding a Publish with `qos` in
{AtLeastOnce, ExactlyOnce} and no packet id fails with `PacketIdRequired`;
with an oversized topic, `InvalidLength` is returned first instead. -/
theorem C3_publish_packet_id_errors (pb : Publish) (dst : List Nat) (cs : Nat)
    (ht : pb.topic.length ≤ 65535) :
    (pb.qos = QoS.AtMostOnce → pb.packet_id.isSome = true →
      (encode (Packet.Publish pb) dst cs).2 = some EncodeError.MalformedPacket) ∧
    ((pb.qos = QoS.AtLeastOnce ∨ pb.qos = QoS.ExactlyOnce) → pb.packet_id = none →
      (encode (Packet.Publish pb) dst cs).2 = some EncodeError.PacketIdRequired) := by
  have h := publish_err_shape pb dst cs ht
  constructor
  · intro h1 h2
    rw [h.1 h1 h2]
  · intro h1 h2
    have hne : pb.qos ≠ QoS.AtMostOnce := by
      rcases h1 with h1 | h1 <;> rw [h1] <;> decide
    rw [h.2 hne h2]

/-- C3 witness: both error cases at concrete Publish values. -/
theorem C3_witness :
    (encode (Packet.Publish (Publish.mk false false QoS.AtMostOnce [116] (some 1) []))
        [] 3).2 = some EncodeError.MalformedPacket ∧
    (encode (Packet.Publish (Publish.mk false false QoS.AtLeastOnce [116] none []))
        [] 5).2 = some EncodeError.PacketIdRequired :=
  ⟨(C3_publish_packet_id_errors (Publish.mk false false QoS.AtMostOnce [116] (some 1) [])
      [] 3 (by decide)).1 rfl rfl,
   (C3_publish_packet_id_errors (Publish.mk false false QoS.AtLeastOnce [116] none [])
      [] 5 (by decide)).2 (Or.inl rfl) rfl⟩

/-- C4 counterexample: `write_variable_length` applied to 127 (the first
input the claim lists) produces `[127]`, not the claimed `[123]` — the byte
value `[123]` belongs to input 123. -/
theorem C4_counterexample :
    writeVariableLength 127 ≠ [123] ∧ writeVariableLength 127 = [127] := by
  decide

/-- C4 (amended): the boundary inputs 127, 128, 16383, 16384, 2097151,
2097152, 268435455 encode to 1, 2, 2, 3, 3, 4, 4 bytes respectively; the
exact byte values are `[127]` for 127 (and `[123]` for 123, the input the
spec's `[123]` vector belongs to), `[0x81,0x01]` for 129, `[0xff,0x7f]` for
16383, `[0xff,0xff,0x7f]` for 2097151 and `[0xff,0xff,0xff,0x7f]` for
268435455. -/
theorem C4_varlen_boundaries :
    (writeVariableLength 127).length = 1 ∧
    (writeVariableLength 128).length = 2 ∧
    (writeVariableLength 16383).length = 2 ∧
    (writeVariableLength 16384).length = 3 ∧
    (writeVariableLength 2097151).length = 3 ∧
    (writeVariableLength 2097152).length = 4 ∧
    (writeVariableLength 268435455).length = 4 ∧
    writeVariableLength 123 = [123] ∧
    writeVariableLength 127 = [127] ∧
    writeVariableLength 129 = [0x81, 0x01] ∧
    writeVariableLength 16383 = [0xff, 0x7f] ∧
    writeVariableLength 2097151 = [0xff, 0xff, 0x7f] ∧
    writeVariableLength 268435455 = [0xff, 0xff, 0xff, 0x7f] := by
  decide

/-- The Connect packet of the spec's test vector: client id `"12345"`,
keep-alive 60, username `"user"`, password `"pass"`, no will, clean_session
false (all strings as their UTF-8 bytes). -/
def connectSample : Connect :=
  Connect.mk false 60 none [49, 50, 51, 52, 53]
    (some [117, 115, 101, 114]) (some [112, 97, 115, 115])

/-- C6: the sample Connect encodes, with its precomputed size, to exactly
the bytes 10 1D 00 04 4D 51 54 54 04 C0 00 3C 00 05 31 32 33 34 35 00 04 75
73 65 72 00 04 70 61 73 73: header 0x10, length 0x1D, protocol name
`"MQTT"`, level 0x04, connect flags 0xC0 (username bit 7, password bit 6),
keep-alive 60, then client id, username, password, each length-prefixed, in
that order. -/
theorem C6_connect_test_vector :
    encode (Packet.Connect connectSample) [] (get_encoded_size (Packet.Connect connectSample)) =
      ([0x10, 0x1D, 0x00, 0x04, 0x4D, 0x51, 0x54, 0x54, 0x04, 0xC0, 0x00, 0x3C,
        0x00, 0x05, 0x31, 0x32, 0x33, 0x34, 0x35,
        0x00, 0x04, 0x75, 0x73, 0x65, 0x72,
        0x00, 0x04, 0x70, 0x61, 0x73, 0x73], none) := by
  decide

/-- C7: any string or byte-buffer field longer than 65535 bytes makes the
field encoder return the `InvalidLength` error (the `u16::try_from` on the
length fails); nothing is appended for that field and no panic is involved
— the error is an ordinary return value. -/
theorem C7_oversized_field_invalid_length (s dst : List Nat) (h : 65535 < s.length) :
    (encBytes s dst).2 = some EncodeError.InvalidLength ∧ (encBytes s dst).1 = dst := by
  rw [encBytes_eq_of_gt h]
  exact ⟨rfl, rfl⟩

/-- C7 witness: a 65536-byte buffer. -/
theorem C7_witness :
    65535 < (List.replicate 65536 (0 : Nat)).length ∧
    ((encBytes (List.replicate 65536 0) [1]).2 = some EncodeError.InvalidLength ∧
      (encBytes (List.replicate 65536 0) [1]).1 = [1]) :=
  ⟨by rw [List.length_replicate]; omega,
   C7_oversized_field_invalid_length (List.replicate 65536 0) [1]
     (by rw [List.length_replicate]; omega)⟩

/-- C8: a SubscribeAck encodes as header byte, length prefix, the 2-byte
packet id, then exactly one status byte per entry of the status sequence in
order — `Success(qos)` as the numeric QoS value (0, 1 or 2) and `Failure`
as 0x80 — and `get_encoded_size` of a SubscribeAck is 2 plus the number of
entries. -/
theorem C8_suback_body (pid : Nat) (status : List SubscribeReturnCode)
    (dst : List Nat) (cs : Nat) (q : QoS) :
    encode (Packet.SubscribeAck pid status) dst cs =
      (dst ++ [packet_type.SUBACK] ++ writeVariableLength cs ++ putU16 pid ++
        status.map subRetCodeByte, none) ∧
    (status.map subRetCodeByte).length = status.length ∧
    get_encoded_size (Packet.SubscribeAck pid status) = 2 + status.length ∧
    subRetCodeByte (SubscribeReturnCode.Success q) = q.toU8 ∧
    subRetCodeByte SubscribeReturnCode.Failure = 0x80 ∧
    QoS.toU8 QoS.AtMostOnce = 0 ∧ QoS.toU8 QoS.AtLeastOnce = 1 ∧
    QoS.toU8 QoS.ExactlyOnce = 2 := by
  refine ⟨rfl, ?_, rfl, rfl, rfl, rfl, rfl, rfl⟩
  simp

/-- C9: `write_variable_length` performs no range check: for every size
beyond the 4-byte maximum 268435455 it still returns normally (its Rust
signature has no error channel at all) and writes exactly 4 bytes, the last
being `(size >> 21)` truncated to 8 bits — which keeps bit 28 of `size` as
a dangling continuation bit and silently discards everything above — so an
out-of-range remaining length is miswritten rather than rejected. -/
theorem C9_varlen_no_range_check (size : Nat) (h : 268435455 < size) :
    writeVariableLength size =
      [(size % 128) ||| 0x80, ((size >>> 7) % 128) ||| 0x80,
        ((size >>> 14) % 128) ||| 0x80, (size >>> 21) % 256] ∧
    (writeVariableLength size).length = 4 := by
  have h1 : ¬ size ≤ 127 := by omega
  have h2 : ¬ size ≤ 16383 := by omega
  have h3 : ¬ size ≤ 2097151 := by omega
  rw [writeVariableLength, if_neg h1, if_neg h2, if_neg h3]
  exact ⟨rfl, rfl⟩

/-- C9 witness: at 268435456 = 2^28 the output is 4 bytes `80 80 80 80`,
whose last byte has the continuation bit set. -/
theorem C9_witness :
    268435455 < 268435456 ∧
    (writeVariableLength 268435456 =
      [(268435456 % 128) ||| 0x80, ((268435456 >>> 7) % 128) ||| 0x80,
        ((268435456 >>> 14) % 128) ||| 0x80, (268435456 >>> 21) % 256] ∧
      (writeVariableLength 268435456).length = 4) :=
  ⟨by omega, C9_varlen_no_range_check 268435456 (by omega)⟩

theorem control.step_codes_length (s : control.Subscribe) (a : control.SubAction) :
    (control.step s a).codes.length = s.codes.length := by
  cases a <;> simp [control.step]

theorem control.applyActs_codes_length (acts : List control.SubAction) :
    ∀ s : control.Subscribe, (control.applyActs s acts).codes.length = s.codes.length := by
  induction acts with
  | nil => intro s; rfl
  | cons a rest ih =>
      intro s
      have h1 : control.applyActs s (a :: rest) = control.applyActs (control.step s a) rest :=
        rfl
      rw [h1, ih (control.step s a), control.step_codes_length]

theorem control.step_codes_get (s : control.Subscribe) (a : control.SubAction) (i : Nat)
    (h : i < s.codes.length) :
    (control.step s a).codes[i]? =
      if a.entry = i then some (control.outcomeOf (some a)) else s.codes[i]? := by
  cases a with
  | subscribe j q =>
      by_cases he : j = i
      · subst he
        simp [control.step, control.SubAction.entry, control.outcomeOf,
          List.getElem?_set_self h]
      · simp [control.step, control.SubAction.entry, control.outcomeOf,
          List.getElem?_set_ne he, he]
  | fail j =>
      by_cases he : j = i
      · subst he
        simp [control.step, control.SubAction.entry, control.outcomeOf,
          List.getElem?_set_self h]
      · simp [control.step, control.SubAction.entry, control.outcomeOf,
          List.getElem?_set_ne he, he]

theorem control.applyActs_codes_get (acts : List control.SubAction) :
    ∀ (s : control.Subscribe) (i : Nat), i < s.codes.length →
      (control.applyActs s acts).codes[i]? =
        (match control.lastOn acts i with
         | some a => some (control.outcomeOf (some a))
         | none => s.codes[i]?) := by
  induction acts with
  | nil => intro s i _; simp [control.applyActs, control.lastOn]
  | cons a rest ih =>
      intro s i h
      have hlen : i < (control.step s a).codes.length := by
        rw [control.step_codes_length]; exact h
      have h1 : control.applyActs s (a :: rest) = control.applyActs (control.step s a) rest :=
        rfl
      rw [h1, ih (control.step s a) i hlen]
      cases hl : control.lastOn rest i with
      | some b => simp [control.lastOn, hl]
      | none =>
          simp only [control.lastOn, hl]
          rw [control.step_codes_get s a i h]
          by_cases he : a.entry = i
          · simp [he]
          · simp [he]

theorem control.lastOn_eq_none (i : Nat) (acts : List control.SubAction)
    (h : ∀ a ∈ acts, control.SubAction.entry a ≠ i) :
    control.lastOn acts i = none := by
  induction acts with
  | nil => rfl
  | cons a rest ih =>
      have hrest : control.lastOn rest i = none := by
        apply ih
        intro b hb
        exact h b (List.mem_cons_of_mem a hb)
      have ha : a.entry ≠ i := h a (List.mem_cons_self a rest)
      simp [control.lastOn, hrest, ha]

theorem control.lastOn_append_entry (i : Nat) (a : control.SubAction)
    (acts : List control.SubAction) (he : a.entry = i) :
    control.lastOn (acts ++ [a]) i = some a := by
  induction acts with
  | nil => simp [control.lastOn, he]
  | cons b rest ih => simp [control.lastOn, ih]

/-- C5: a Subscribe control object built from `n` requested (topic, QoS)
pairs starts with `n` outcome slots all `Failure`; after any handler run
`ack` yields exactly one code per requested filter in request order; any
entry no call ever wrote to is still `Failure` (so also when the handler
visits zero entries); and in the concrete 2-topic case where the handler
calls `subscribe(AtLeastOnce)` on the first entry only, the codes are
`[Success(AtLeastOnce), Failure]` (here with the granted QoS `q`). -/
theorem C5_subscribe_one_status_per_filter (pid : Nat) (ts : List (List Nat × QoS))
    (acts : List control.SubAction) (i : Nat) (t1 t2 : List Nat) (qa qb q : QoS)
    (hi : i < ts.length) (hun : ∀ a ∈ acts, control.SubAction.entry a ≠ i) :
    (control.Subscribe.new pid ts).codes =
      List.replicate ts.length SubscribeReturnCode.Failure ∧
    ((control.applyActs (control.Subscribe.new pid ts) acts).ack).codes.length = ts.length ∧
    ((control.applyActs (control.Subscribe.new pid ts) acts).ack).codes[i]? =
      some SubscribeReturnCode.Failure ∧
    ((control.applyActs (control.Subscribe.new pid [(t1, qa), (t2, qb)])
        [control.SubAction.subscribe 0 q]).ack).codes =
      [SubscribeReturnCode.Success q, SubscribeReturnCode.Failure] := by
  have hi2 : i < (control.Subscribe.new pid ts).codes.length := by
    simpa [control.Subscribe.new] using hi
  refine ⟨rfl, ?_, ?_, rfl⟩
  · show (control.applyActs (control.Subscribe.new pid ts) acts).codes.length = ts.length
    rw [control.applyActs_codes_length]
    simp [control.Subscribe.new]
  · show (control.applyActs (control.Subscribe.new pid ts) acts).codes[i]? =
      some SubscribeReturnCode.Failure
    rw [control.applyActs_codes_get acts _ i hi2, control.lastOn_eq_none i acts hun]
    simp [control.Subscribe.new, List.getElem?_replicate_of_lt hi]

/-- C5 witness: one topic, an empty handler run (everything stays
`Failure`), plus the 2-topic scenario. -/
theorem C5_witness :
    (0 : Nat) < 1 ∧
    ((control.Subscribe.new 1 [([97], QoS.AtMostOnce)]).codes =
        List.replicate 1 SubscribeReturnCode.Failure ∧
      ((control.applyActs (control.Subscribe.new 1 [([97], QoS.AtMostOnce)]) []).ack).codes.length =
        1 ∧
      ((control.applyActs (control.Subscribe.new 1 [([97], QoS.AtMostOnce)]) []).ack).codes[0]? =
        some SubscribeReturnCode.Failure ∧
      ((control.applyActs (control.Subscribe.new 1 [([98], QoS.AtMostOnce), ([99], QoS.ExactlyOnce)])
          [control.SubAction.subscribe 0 QoS.AtLeastOnce]).ack).codes =
        [SubscribeReturnCode.Success QoS.AtLeastOnce, SubscribeReturnCode.Failure]) :=
  ⟨by decide,
   C5_subscribe_one_status_per_filter 1 [([97], QoS.AtMostOnce)] [] 0 [98] [99]
     QoS.AtMostOnce QoS.ExactlyOnce QoS.AtLeastOnce (by decide)
     (by intro a ha; simp at ha)⟩

/-- C10: the per-entry handler obligation is unenforced — `subscribe` and
`fail` may be called any number of times in any order on a slot, and the
code `ack` reports for entry `i` is decided solely by the last call that
wrote to `i` (`Success q` for `subscribe q`, `Failure` for `fail`,
`Failure` when nothing ever wrote); `fail` after anything forces `Failure`,
and a second consecutive `fail` leaves the whole object unchanged. -/
theorem C10_last_call_wins (pid : Nat) (ts : List (List Nat × QoS))
    (acts : List control.SubAction) (i : Nat) (hi : i < ts.length) :
    ((control.applyActs (control.Subscribe.new pid ts) acts).ack).codes[i]? =
      some (control.outcomeOf (control.lastOn acts i)) ∧
    ((control.applyActs (control.Subscribe.new pid ts)
        (acts ++ [control.SubAction.fail i])).ack).codes[i]? =
      some SubscribeReturnCode.Failure ∧
    control.applyActs (control.Subscribe.new pid ts)
        (acts ++ [control.SubAction.fail i, control.SubAction.fail i]) =
      control.applyActs (control.Subscribe.new pid ts) (acts ++ [control.SubAction.fail i]) := by
  have hi2 : i < (control.Subscribe.new pid ts).codes.length := by
    simpa [control.Subscribe.new] using hi
  refine ⟨?_, ?_, ?_⟩
  · show (control.applyActs (control.Subscribe.new pid ts) acts).codes[i]? =
      some (control.outcomeOf (control.lastOn acts i))
    rw [control.applyActs_codes_get acts _ i hi2]
    cases hl : control.lastOn acts i with
    | some a => rfl
    | none =>
        simp [control.Subscribe.new, control.outcomeOf, List.getElem?_replicate_of_lt hi]
  · show (control.applyActs (control.Subscribe.new pid ts)
        (acts ++ [control.SubAction.fail i])).codes[i]? = some SubscribeReturnCode.Failure
    rw [control.applyActs_codes_get _ _ i hi2,
      control.lastOn_append_entry i (control.SubAction.fail i) acts rfl]
    rfl
  · simp only [control.applyActs, List.foldl_append]
    show control.step
        (control.step (control.applyActs (control.Subscribe.new pid ts) acts)
          (control.SubAction.fail i)) (control.SubAction.fail i) =
      control.step (control.applyActs (control.Subscribe.new pid ts) acts)
        (control.SubAction.fail i)
    simp [control.step, List.set_set]

/-- C10 witness: subscribe, fail, then subscribe again on the same entry —
the final subscribe decides the outcome. -/
theorem C10_witness :
    (0 : Nat) < 1 ∧
    (((control.applyActs (control.Subscribe.new 1 [([116], QoS.AtMostOnce)])
        [control.SubAction.subscribe 0 QoS.ExactlyOnce, control.SubAction.fail 0,
          control.SubAction.subscribe 0 QoS.AtLeastOnce]).ack).codes[0]? =
      some (control.outcomeOf (control.lastOn
        [control.SubAction.subscribe 0 QoS.ExactlyOnce, control.SubAction.fail 0,
          control.SubAction.subscribe 0 QoS.AtLeastOnce] 0)) ∧
    ((control.applyActs (control.Subscribe.new 1 [([116], QoS.AtMostOnce)])
        ([control.SubAction.subscribe 0 QoS.ExactlyOnce, control.SubAction.fail 0,
          control.SubAction.subscribe 0 QoS.AtLeastOnce] ++
          [control.SubAction.fail 0])).ack).codes[0]? =
      some SubscribeReturnCode.Failure ∧
    control.applyActs (control.Subscribe.new 1 [([116], QoS.AtMostOnce)])
        ([control.SubAction.subscribe 0 QoS.ExactlyOnce, control.SubAction.fail 0,
          control.SubAction.subscribe 0 QoS.AtLeastOnce] ++
          [control.SubAction.fail 0, control.SubAction.fail 0]) =
      control.applyActs (control.Subscribe.new 1 [([116], QoS.AtMostOnce)])
        ([control.SubAction.subscribe 0 QoS.ExactlyOnce, control.SubAction.fail 0,
          control.SubAction.subscribe 0 QoS.AtLeastOnce] ++
          [control.SubAction.fail 0])) :=
  ⟨by decide,
   C10_last_call_wins 1 [([116], QoS.AtMostOnce)]
     [control.SubAction.subscribe 0 QoS.ExactlyOnce, control.SubAction.fail 0,
       control.SubAction.subscribe 0 QoS.AtLeastOnce] 0 (by decide)⟩
